import Mathlib

/-
Verification of the multi-agent social-deduction game core
(`game_engine.py`, `app.py`) against its natural-language specification.

The Python source is shallowly embedded:
  * `Agent`, `GameEngine`, round records and the driver session state become
    Lean structures; in-place mutation becomes explicit state passing.
  * Python dicts (`answers`, `votes`, `vote_counts`) become insertion-ordered
    association lists (`List (String × _)`); `d[k] = v` is `dictSet`,
    `d.get(k, 0) + 1` is `dictIncr`, both preserving the position of an
    existing key and appending a fresh key, exactly like CPython dicts.
  * The external text-generation capability (`run_llm_query`) is an
    environment parameter.  For question/answer requests it maps a template
    tag plus the variable bindings built by the engine to either a terminal
    error or a text (`Except String String`).  For vote requests the
    environment additionally abstracts the JSON-extraction pipeline of
    `conduct_voting` (regex fence search + `json.loads` + field access,
    game_engine.py lines 204-222, all under the same `try`): it yields either
    an error (terminal generation failure or any parse failure) or the parsed
    and stripped `(vote, reasoning)` string pair.  The engine's own
    validation of the parsed target is modelled in full.
  * The literal wording of the prompt templates and personality texts
    (`prompts.py`) is static configuration data declared out of scope by the
    specification (spec section 1); templates are passed as tags and the
    personality text as an uninterpreted function of the trait key.  All
    variable bindings the engine computes and passes to the capability are
    modelled faithfully.
  * Randomness (`random.choice`) is an externally supplied index, reduced
    modulo the length of the choice list (a real `random.choice` always
    returns an element at such an index).
  * Exception-based control flow becomes `Except`: the `try/except` of the
    voting retry loop is the `match` on the attempt outcome.
-/

/-- One participant, as built by `GameEngine._create_agents`. -/
structure Agent where
  name : String
  personality_type : String
  is_killer : Bool
deriving Repr, DecidableEq, Inhabited

/-- Python `str.capitalize`: first character upper-cased, rest lower-cased. -/
def pyCapitalize (s : String) : String :=
  match s.data with
  | [] => ""
  | c :: cs => ⟨c.toUpper :: cs.map Char.toLower⟩

/-- `GameEngine._create_agents`: the 5 agents with fixed personality types,
named `<Capitalized trait> Agent`. -/
def create_agents : List Agent :=
  ["openness", "conscientiousness", "extraversion", "agreeableness", "neuroticism"].map
    (fun p => { name := pyCapitalize p ++ " Agent", personality_type := p, is_killer := false })

/-- One round's record (`round_data` dict built by `GameEngine.run_round`);
`answers` is the insertion-ordered responder-name → answer dict. -/
structure RoundData where
  round : Nat
  questioner : String
  question : String
  answers : List (String × String)
deriving Repr, DecidableEq, Inhabited

/-- The mutable engine state of `GameEngine.__init__`. -/
structure GameEngine where
  model_name : String
  agents : List Agent
  killer : Agent
  conversation_history : List RoundData
  current_questioner_idx : Nat
deriving Repr, Inhabited

/-- `GameEngine.__init__` plus `_select_killer`: `random.choice` is modelled by
the externally supplied index `killer_idx` (reduced mod the agent count).
Marking `killer.is_killer = True` mutates the agent object shared with the
`agents` list, so the marked agent appears in both places. -/
def mkGameEngine (model_name : String) (killer_idx : Nat) : GameEngine :=
  let agents0 := create_agents
  let k := killer_idx % agents0.length
  let agents := agents0.mapIdx (fun i a => if i = k then { a with is_killer := true } else a)
  { model_name := model_name
    agents := agents
    killer := agents.getD k default
    conversation_history := []
    current_questioner_idx := 0 }

/-- One round's block of `GameEngine._format_conversation_history`
(`idx` is the 0-based position in the history). -/
def format_round_block (idx : Nat) (rd : RoundData) : String :=
  "[Round " ++ toString (idx + 1) ++ "]\n"
    ++ rd.questioner ++ " asked: \"" ++ rd.question ++ "\"\n"
    ++ String.join (rd.answers.map (fun p => p.1 ++ " answered: \"" ++ p.2 ++ "\"\n"))
    ++ "\n"

/-- `GameEngine._format_conversation_history`. -/
def format_conversation_history (history : List RoundData) : String :=
  String.join (history.enum.map (fun p => format_round_block p.1 p.2))

/-- Which prompt template of `prompts.py` a generation request uses.  The
template wording is out-of-scope configuration data (spec section 1). -/
inductive PromptTemplate where
  | question
  | answer
  | voting
deriving Repr, DecidableEq

/-- Static game-framing text (`BASE_GAME_CONTEXT`); wording out of scope
(spec section 1), modelled as an uninterpreted constant. -/
def BASE_GAME_CONTEXT : String := "<base game context>"

/-- Static per-trait guidance (`PERSONALITY_PROMPTS[trait]`); wording out of
scope (spec section 1), modelled as an uninterpreted function of the key. -/
def personality_prompt_for (trait : String) : String :=
  "<personality prompt: " ++ trait ++ ">"

/-- A single quote character (used by Python `repr` of strings). -/
def squote : String := String.singleton (Char.ofNat 39)

/-- Python `str(list_of_strings)`, as substituted into a prompt template:
`[<sq>A<sq>, <sq>B<sq>]` with single quotes. -/
def py_list_repr (l : List String) : String :=
  "[" ++ String.intercalate ", " (l.map (fun s => squote ++ s ++ squote)) ++ "]"

/-- Python `str.strip()` with no argument: remove leading and trailing
whitespace. -/
def pyStrip (s : String) : String :=
  ⟨((s.data.dropWhile Char.isWhitespace).reverse.dropWhile Char.isWhitespace).reverse⟩

/-- CPython dict assignment `d[k] = v` on an insertion-ordered association
list: overwrite in place if the key exists, append otherwise. -/
def dictSet {α : Type} (d : List (String × α)) (k : String) (v : α) : List (String × α) :=
  match d with
  | [] => [(k, v)]
  | (k2, v2) :: rest => if k2 = k then (k2, v) :: rest else (k2, v2) :: dictSet rest k v

/-- CPython `d[k] = d.get(k, 0) + 1` on an insertion-ordered association list. -/
def dictIncr (d : List (String × Nat)) (k : String) : List (String × Nat) :=
  match d with
  | [] => [(k, 1)]
  | (k2, v2) :: rest => if k2 = k then (k2, v2 + 1) :: rest else (k2, v2) :: dictIncr rest k

/-- The variable bindings built by `GameEngine._generate_question`. -/
def question_prompt_vars (s : GameEngine) (agent : Agent) (round_number : Nat) :
    List (String × String) :=
  [("base_context", BASE_GAME_CONTEXT),
   ("personality_prompt", personality_prompt_for agent.personality_type),
   ("agent_name", agent.name),
   ("personality_type", agent.personality_type),
   ("current_round", toString round_number),
   ("conversation_history", format_conversation_history s.conversation_history)]

/-- The variable bindings built by `GameEngine._generate_answer`; the killer
status is passed as a one-of-two status string, never a boolean. -/
def answer_prompt_vars (s : GameEngine) (agent : Agent) (questioner : Agent)
    (question : String) (round_number : Nat) : List (String × String) :=
  [("base_context", BASE_GAME_CONTEXT),
   ("personality_prompt", personality_prompt_for agent.personality_type),
   ("agent_name", agent.name),
   ("personality_type", agent.personality_type),
   ("current_round", toString round_number),
   ("conversation_history", format_conversation_history s.conversation_history),
   ("questioner_name", questioner.name),
   ("current_question", question),
   ("killer_status", if agent.is_killer then "the killer" else "not the killer")]

/-- The external text-generation capability as seen by `run_round`
(`run_llm_query`): template tag and variable bindings to terminal error or
response text.  Its internal transient-failure retries are out of scope. -/
structure LlmEnv where
  gen : PromptTemplate → List (String × String) → Except String String

/-- One generation request issued by the engine: template tag plus bindings. -/
def LlmCall : Type := PromptTemplate × List (String × String)

instance : DecidableEq LlmCall := by
  unfold LlmCall
  infer_instance

/-- The answers loop of `GameEngine.run_round` (lines 81-89): for every agent
other than the questioner, in registry order, request an answer and store its
trimmed text under the agent's name; any generation failure aborts the loop
and propagates.  Object identity `agent != questioner` is modelled as name
inequality (agent names are unique within a game).  The second component logs
every generation request issued, for stating the no-retry property. -/
def answers_loop (env : LlmEnv) (s : GameEngine) (questioner : Agent)
    (question : String) (round_number : Nat) :
    List Agent → List (String × String) →
    Except String (List (String × String)) × List LlmCall
  | [], acc => (.ok acc, [])
  | a :: rest, acc =>
    if a.name = questioner.name then
      answers_loop env s questioner question round_number rest acc
    else
      let avars := answer_prompt_vars s a questioner question round_number
      match env.gen .answer avars with
      | .error e => (.error e, [(.answer, avars)])
      | .ok ans =>
        let r := answers_loop env s questioner question round_number rest
          (dictSet acc a.name (pyStrip ans))
        (r.1, (.answer, avars) :: r.2)

/-- `GameEngine.run_round`, instrumented with the list of generation requests
issued.  The questioner comes from the internal rotation counter
`current_questioner_idx`, which is advanced (mod the agent count) before any
generation happens; the assembled record is appended to
`conversation_history` only after the question and every answer succeeded. -/
def GameEngine.run_round_aux (s : GameEngine) (env : LlmEnv) (round_number : Nat) :
    Except String RoundData × GameEngine × List LlmCall :=
  let questioner := s.agents.getD s.current_questioner_idx default
  let s1 := { s with current_questioner_idx := (s.current_questioner_idx + 1) % s.agents.length }
  let qvars := question_prompt_vars s1 questioner round_number
  match env.gen .question qvars with
  | .error e => (.error e, s1, [(.question, qvars)])
  | .ok question0 =>
    let question := pyStrip question0
    let r := answers_loop env s1 questioner question round_number s1.agents []
    match r.1 with
    | .error e => (.error e, s1, (.question, qvars) :: r.2)
    | .ok answers =>
      let round_data : RoundData :=
        { round := round_number
          questioner := questioner.name
          question := pyStrip question
          answers := answers }
      (.ok round_data,
       { s1 with conversation_history := s1.conversation_history ++ [round_data] },
       (.question, qvars) :: r.2)

/-- `GameEngine.run_round`: result and updated engine state. -/
def GameEngine.run_round (s : GameEngine) (env : LlmEnv) (round_number : Nat) :
    Except String RoundData × GameEngine :=
  let r := s.run_round_aux env round_number
  (r.1, r.2.1)

/-- A sequence of `run_round` calls (whatever each returns), threading the
engine state: models the driver invoking the engine repeatedly. -/
def run_calls (s : GameEngine) (env : LlmEnv) : List Nat → GameEngine
  | [] => s
  | n :: ns => run_calls ((s.run_round env n).2) env ns

/-- A generation environment that answers every request with `"ok"`. -/
def envOk : LlmEnv := ⟨fun _ _ => .ok "ok"⟩

/-- A generation environment whose every request fails terminally. -/
def envBad : LlmEnv := ⟨fun _ _ => .error "boom"⟩

/-- One vote decision as stored into the `votes` dict by
`GameEngine.conduct_voting`. -/
structure Vote where
  vote : String
  reasoning : String
deriving Repr, DecidableEq, Inhabited

/-- game_engine.py line 164 (and, recomputed identically, line 245):
`[a.name for a in self.agents if a.name != agent.name]`. -/
def valid_agents_for (agents : List Agent) (agent : Agent) : List String :=
  (agents.filter (fun a => a.name ≠ agent.name)).map (fun a => a.name)

/-- The strengthened-guidance text of game_engine.py lines 175-181, built from
the `previous_error` value in scope at that point. -/
def retry_guidance_text (valid_agents : List String) (previous_error : String) : String :=
  "IMPORTANT: Previous response could not be used. "
    ++ "You must format your response as valid JSON and vote for an agent that is not yourself. "
    ++ "Valid agents to vote for (excluding yourself): "
    ++ String.intercalate ", " valid_agents
    ++ " Previous error: " ++ previous_error

/-- The variable bindings built by `GameEngine.conduct_voting` (lines 183-195).
`agent_names`, `agent_names_list` and `agent_names_bullets` are all derived
from `valid_agents`, which excludes the voter (lines 164-166). -/
def voting_prompt_vars (s : GameEngine) (agent : Agent) (valid_agents : List String)
    (retry_guidance : String) : List (String × String) :=
  [("base_context", BASE_GAME_CONTEXT),
   ("personality_prompt", personality_prompt_for agent.personality_type),
   ("agent_name", agent.name),
   ("personality_type", agent.personality_type),
   ("rounds_played", toString s.conversation_history.length),
   ("conversation_history", format_conversation_history s.conversation_history),
   ("agent_names", String.intercalate ", " (valid_agents.map (fun n => "\"" ++ n ++ "\""))),
   ("agent_names_list", py_list_repr valid_agents),
   ("agent_names_bullets", String.intercalate "\n" (valid_agents.map (fun n => "  - " ++ n))),
   ("retry_guidance", retry_guidance)]

/-- The `str(e)` of the `ValueError` raised at game_engine.py lines 229-231
when a parsed target is not a valid agent name. -/
def invalid_target_msg (vote_target : String) (valid_agents : List String) : String :=
  "Invalid vote target: " ++ vote_target ++ ". Must be one of "
    ++ py_list_repr valid_agents ++ "."

/-- The error string an attempt ends with when it does not produce a valid
vote: the environment's own error (terminal generation failure or JSON parse
failure), or the `ValueError` text for a parsed but invalid target. -/
def attempt_error (r : Except String (String × String)) (valid_agents : List String) : String :=
  match r with
  | .error e => e
  | .ok (t, _) => invalid_target_msg t valid_agents

/-- Whether an attempt outcome fails to produce a valid vote. -/
def attempt_fails (r : Except String (String × String)) (valid_agents : List String) : Bool :=
  match r with
  | .error _ => true
  | .ok (t, _) => ¬ t ∈ valid_agents

/-- `max_attempts` of game_engine.py line 169. -/
def max_attempts : Nat := 3

/-- The `[Error processing vote: ...]` reasoning synthesized on the random
fallback path (game_engine.py line 247). -/
def fallback_reasoning (e : String) : String :=
  "[Error processing vote: " ++ e ++ ". Random vote generated as fallback]"

/-- The per-agent retry loop of `GameEngine.conduct_voting`
(lines 170-250), over the list of remaining attempt indices.

At the top of every iteration the source re-initializes `retry_guidance` and
`previous_error` to `""` (lines 172-173) before building the guidance, so the
error recorded by the previous attempt (`previous_error = str(e)`, line 240,
threaded here as the shadowed parameter) never reaches the guidance text.

The environment models `run_llm_query` plus the JSON extraction of
lines 198-222 (all inside the same `try`), given the attempt index and the
prompt variable bindings.  On a parse failure or on a terminal generation
failure it yields the exception text; otherwise the stripped `vote` and
`reasoning` fields.  The target validation of lines 224-234 and the
random-fallback last-attempt handling of lines 241-250 are modelled in full;
`random.choice(valid_agents)` picks the element at the supplied index
`rand_pick` mod the list length.

Returns the final `(vote_target, reasoning)` together with the list of the
prompt variable bindings passed to the capability at each attempt made. -/
def vote_loop (env : Nat → List (String × String) → Except String (String × String))
    (s : GameEngine) (agent : Agent) (valid_agents : List String) (rand_pick : Nat) :
    List Nat → String → String × String × List (List (String × String))
  | [], _previous_error => ("", "", [])
  | attempt :: rest, _previous_error =>
    let previous_error := ""
    let retry_guidance :=
      if attempt > 0 then retry_guidance_text valid_agents previous_error else ""
    let prompt_vars := voting_prompt_vars s agent valid_agents retry_guidance
    let step : Except String (String × String) :=
      match env attempt prompt_vars with
      | .error e => .error e
      | .ok (vote_target, reasoning) =>
        if vote_target ∈ valid_agents then .ok (vote_target, reasoning)
        else .error (invalid_target_msg vote_target valid_agents)
    match step with
    | .ok (vote_target, reasoning) => (vote_target, reasoning, [prompt_vars])
    | .error e =>
      match rest with
      | [] =>
        let vote_target := valid_agents.getD (rand_pick % valid_agents.length) ""
        (vote_target, fallback_reasoning e, [prompt_vars])
      | _ :: _ =>
        let r := vote_loop env s agent valid_agents rand_pick rest e
        (r.1, r.2.1, prompt_vars :: r.2.2)

/-- The body of the per-agent iteration of `GameEngine.conduct_voting`
(lines 159-250 for one agent): the valid-target set (line 164) and the retry
loop, yielding the final vote target, reasoning, and prompt-variable trace.
The vote environment is keyed by the voter's name and the attempt index; the
fallback random index by the voter's name. -/
def agent_vote_result (s : GameEngine)
    (env : String → Nat → List (String × String) → Except String (String × String))
    (rand : String → Nat) (agent : Agent) :
    String × String × List (List (String × String)) :=
  let valid_agents := valid_agents_for s.agents agent
  vote_loop (env agent.name) s agent valid_agents (rand agent.name)
    (List.range max_attempts) ""

/-- `GameEngine.conduct_voting`, instrumented: builds the `votes` dict (one
entry per agent, keyed by name, in registry order) and, alongside, the trace
of prompt variable bindings issued per agent. -/
def GameEngine.conduct_voting_aux (s : GameEngine)
    (env : String → Nat → List (String × String) → Except String (String × String))
    (rand : String → Nat) :
    List (String × Vote) × List (String × List (List (String × String))) :=
  s.agents.foldl
    (fun acc agent =>
      let r := agent_vote_result s env rand agent
      (dictSet acc.1 agent.name { vote := r.1, reasoning := r.2.1 },
       dictSet acc.2 agent.name r.2.2))
    ([], [])

/-- `GameEngine.conduct_voting`: the returned `votes` mapping. -/
def GameEngine.conduct_voting (s : GameEngine)
    (env : String → Nat → List (String × String) → Except String (String × String))
    (rand : String → Nat) : List (String × Vote) :=
  (s.conduct_voting_aux env rand).1

/-- The per-agent prompt-variable traces of a `conduct_voting` call. -/
def GameEngine.conduct_voting_trace (s : GameEngine)
    (env : String → Nat → List (String × String) → Except String (String × String))
    (rand : String → Nat) : List (String × List (List (String × String))) :=
  (s.conduct_voting_aux env rand).2

/-- The driver's `next_action` session flag (`"round"` / `"voting"`). -/
inductive NextAction where
  | round
  | voting
deriving Repr, DecidableEq, Inhabited

/-- The `game_outcome` dict stored by `app.conduct_voting` (lines 218-224). -/
structure Outcome where
  majority_found : Bool
  majority_agent : Option String
  vote_distribution : List (String × Nat)
  rounds_played : Nat
  correctly_identified : Bool
deriving Repr, DecidableEq, Inhabited

/-- The Streamlit session state owned by the driver (`app.py` lines 111-121,
124-138), restricted to the game-progression fields; UI, ids and persistence
are out of scope. -/
structure AppState where
  engine : GameEngine
  model_name : String
  current_round : Nat
  game_complete : Bool
  game_log : List RoundData
  votes : List (String × Vote)
  vote_counts : List (String × Nat)
  game_outcome : Option Outcome
  current_questioner : String
  next_action : NextAction
  voting_conducted : Bool
deriving Inhabited

/-- The vote-count tally of `app.conduct_voting` (lines 204-208):
`vote_counts[target] = vote_counts.get(target, 0) + 1` over the votes in
insertion order. -/
def vote_counts_of (votes : List (String × Vote)) : List (String × Nat) :=
  votes.foldl (fun d p => dictIncr d p.2.vote) []

/-- The majority scan of `app.conduct_voting` (lines 211-215): the first
target in tally-iteration order with count `>= 3`, else none. -/
def majority_agent : List (String × Nat) → Option String
  | [] => none
  | (a, count) :: rest => if count ≥ 3 then some a else majority_agent rest

/-- Python truthiness of the `majority_agent` variable (`None` and the empty
string are falsy), as used by `if majority_agent` at lines 223 and 238. -/
def py_truthy : Option String → Bool
  | none => false
  | some a => a ≠ ""

/-- The `game_outcome` computation of `app.conduct_voting` (lines 218-224).
`majority_found` uses `is not None`; `correctly_identified` uses the
conditional expression `... if majority_agent else False` (truthiness). -/
def voting_outcome (votes : List (String × Vote)) (killer_name : String)
    (current_round : Nat) : Outcome :=
  let vote_counts := vote_counts_of votes
  let majority := majority_agent vote_counts
  { majority_found := majority.isSome
    majority_agent := majority
    vote_distribution := vote_counts
    rounds_played := current_round - 1
    correctly_identified :=
      match majority with
      | some a => if a = "" then false else a = killer_name
      | none => false }

/-- `app.run_game_round` (lines 145-182), success and failure paths: the
displayed questioner is recomputed from the round counter; on success the
returned record is appended to the driver's `game_log`, the round counter
advances, and voting is scheduled after every 3rd round; on a propagated
generation failure only the (already mutated) engine is kept, with a
non-crashing notice.  The `round_in_progress` serialization guard is
concurrency machinery with no net state effect and is out of scope. -/
def run_game_round_step (env : LlmEnv) (s : AppState) : AppState :=
  let questioner_idx := (s.current_round - 1) % s.engine.agents.length
  let s := { s with current_questioner := (s.engine.agents.getD questioner_idx default).name }
  match s.engine.run_round env s.current_round with
  | (.ok round_results, eng) =>
    let cr := s.current_round + 1
    { s with engine := eng
             game_log := s.game_log ++ [round_results]
             current_round := cr
             voting_conducted := false
             next_action := if (cr - 1) % 3 = 0 then NextAction.voting else NextAction.round }
  | (.error _, eng) => { s with engine := eng }

/-- `app.conduct_voting` (lines 185-250): run the engine's voting phase,
tally, detect a majority, store the outcome, and end the game iff a majority
was found or the round counter exceeds 20; otherwise schedule another round.
Persistence (`save_game_results`) is out of scope. -/
def conduct_voting_step
    (venv : String → Nat → List (String × String) → Except String (String × String))
    (rand : String → Nat) (s : AppState) : AppState :=
  let votes := s.engine.conduct_voting venv rand
  let vote_counts := vote_counts_of votes
  let majority := majority_agent vote_counts
  let outcome := voting_outcome votes s.engine.killer.name s.current_round
  let s := { s with votes := votes
                    voting_conducted := true
                    vote_counts := vote_counts
                    game_outcome := some outcome }
  if py_truthy majority || decide (s.current_round > 20) then
    { s with game_complete := true }
  else
    { s with next_action := NextAction.round }

/-- `app.initialize_new_game` (lines 124-138), game-progression fields. -/
def init_new_game (model_name : String) (killer_idx : Nat) : AppState :=
  { engine := mkGameEngine model_name killer_idx
    model_name := model_name
    current_round := 1
    game_complete := false
    game_log := []
    votes := []
    vote_counts := []
    game_outcome := none
    current_questioner := ""
    next_action := NextAction.round
    voting_conducted := false }

/-- One step of the driver's automatic progression (`app.py` lines 269-275):
while the game is not complete, dispatch on `next_action`. -/
def app_auto_step (env : LlmEnv)
    (venv : String → Nat → List (String × String) → Except String (String × String))
    (rand : String → Nat) (s : AppState) : AppState :=
  if s.game_complete then s
  else
    match s.next_action with
    | NextAction.voting => conduct_voting_step venv rand s
    | NextAction.round => run_game_round_step env s

/-- A vote target for each agent such that every agent receives exactly one
vote (a 5-cycle), so no tally ever reaches the quorum of 3. -/
def cycle_target (name : String) : String :=
  (List.lookup name
    [("Openness Agent", "Conscientiousness Agent"),
     ("Conscientiousness Agent", "Extraversion Agent"),
     ("Extraversion Agent", "Agreeableness Agent"),
     ("Agreeableness Agent", "Neuroticism Agent"),
     ("Neuroticism Agent", "Openness Agent")]).getD ""

/-- A vote environment in which every agent's first attempt parses to its
cycle target: all valid votes, never any majority. -/
def venvCycle : String → Nat → List (String × String) → Except String (String × String) :=
  fun name _ _ => .ok (cycle_target name, "r")

/-- A trivially seeded random source. -/
def randZero : String → Nat := fun _ => 0

/-- The 21-round no-consensus simulation of the driver loop: 21 rounds with
voting phases after rounds 3, 6, ..., 21 (28 auto-steps in total), where no
tally ever reaches quorum.  Records whether the game reports complete. -/
def app_termination_sim : Bool :=
  ((app_auto_step envOk venvCycle randZero)^[28] (init_new_game "m" 0)).game_complete

/-- The round counter of the same simulation after the final voting phase. -/
def app_termination_sim_round : Nat :=
  ((app_auto_step envOk venvCycle randZero)^[28] (init_new_game "m" 0)).current_round

/-- A vote environment in which every attempt fails terminally with `"E1"`. -/
def venvFail : String → Nat → List (String × String) → Except String (String × String) :=
  fun _ _ _ => .error "E1"

/-- A vote environment whose first attempt fails with `"E1"` and whose later
attempts parse to the (valid) cycle target. -/
def venvC4 : String → Nat → List (String × String) → Except String (String × String) :=
  fun nm i _ => if i = 0 then .error "E1" else .ok (cycle_target nm, "r")

/-- An example voting-phase result: three votes for the Openness agent. -/
def votesEx : List (String × Vote) :=
  [("Openness Agent", { vote := "Conscientiousness Agent", reasoning := "r" }),
   ("Conscientiousness Agent", { vote := "Openness Agent", reasoning := "r" }),
   ("Extraversion Agent", { vote := "Openness Agent", reasoning := "r" }),
   ("Agreeableness Agent", { vote := "Openness Agent", reasoning := "r" }),
   ("Neuroticism Agent", { vote := "Extraversion Agent", reasoning := "r" })]

theorem dictSet_of_not_mem {α : Type} (d : List (String × α)) (k : String) (v : α)
    (h : ¬ k ∈ d.map Prod.fst) : dictSet d k v = d ++ [(k, v)] := by
  induction d with
  | nil => rfl
  | cons p rest ih =>
    obtain ⟨k2, v2⟩ := p
    simp only [List.map_cons, List.mem_cons, not_or] at h
    simp only [dictSet, List.cons_append]
    rw [if_neg (fun hh => h.1 hh.symm), ih h.2]

theorem mem_dictSet {α : Type} (d : List (String × α)) (k : String) (v : α)
    (p : String × α) (h : p ∈ dictSet d k v) : p ∈ d ∨ p = (k, v) := by
  induction d with
  | nil => simpa [dictSet] using h
  | cons q rest ih =>
    obtain ⟨k2, v2⟩ := q
    by_cases hk : k2 = k
    · simp only [dictSet, if_pos hk] at h
      rcases List.mem_cons.1 h with h1 | h1
      · right; rw [h1, hk]
      · left; exact List.mem_cons_of_mem _ h1
    · simp only [dictSet, if_neg hk] at h
      rcases List.mem_cons.1 h with h1 | h1
      · left; exact h1 ▸ List.mem_cons_self _ _
      · rcases ih h1 with h2 | h2
        · left; exact List.mem_cons_of_mem _ h2
        · right; exact h2

theorem dictIncr_lookup (d : List (String × Nat)) (k t : String) :
    (dictIncr d k).lookup t =
      if t = k then some ((d.lookup t).getD 0 + 1) else d.lookup t := by
  induction d with
  | nil =>
    by_cases h : t = k
    · subst h; simp [dictIncr, List.lookup]
    · have hb : (t == k) = false := by simp [h]
      simp [dictIncr, List.lookup, hb, h]
  | cons q rest ih =>
    obtain ⟨k2, v2⟩ := q
    by_cases hk : k2 = k
    · subst hk
      by_cases ht : t = k2
      · subst ht; simp [dictIncr, List.lookup]
      · have hb : (t == k2) = false := by simp [ht]
        simp [dictIncr, List.lookup, hb, ht]
    · by_cases ht : t = k2
      · subst ht
        simp [dictIncr, hk, List.lookup]
      · have hb : (t == k2) = false := by simp [ht]
        simp [dictIncr, hk, List.lookup, hb, ht, ih]

theorem dictIncr_keys_sub (d : List (String × Nat)) (k x : String)
    (h : x ∈ (dictIncr d k).map Prod.fst) : x ∈ d.map Prod.fst ∨ x = k := by
  induction d with
  | nil => simpa [dictIncr] using h
  | cons q rest ih =>
    obtain ⟨k2, v2⟩ := q
    by_cases hk : k2 = k
    · simp only [dictIncr, if_pos hk, List.map_cons, List.mem_cons] at h ⊢
      tauto
    · simp only [dictIncr, if_neg hk, List.map_cons, List.mem_cons] at h ⊢
      tauto

theorem vote_counts_foldl_lookup (l : List (String × Vote)) (d : List (String × Nat))
    (t : String) :
    ((l.foldl (fun d p => dictIncr d p.2.vote) d).lookup t).getD 0 =
      (d.lookup t).getD 0 + l.countP (fun p => p.2.vote == t) := by
  induction l generalizing d with
  | nil => simp
  | cons p rest ih =>
    simp only [List.foldl_cons, List.countP_cons]
    rw [ih, dictIncr_lookup]
    by_cases h : t = p.2.vote
    · have hb : (p.2.vote == t) = true := by simp [h.symm]
      simp only [if_pos h, Option.getD_some, hb, if_true]
      omega
    · have hb : (p.2.vote == t) = false := by
        simp only [beq_eq_false_iff_ne, ne_eq]
        exact fun hh => h hh.symm
      simp only [if_neg h, hb, Bool.false_eq_true, if_false]
      omega

theorem vote_counts_keys_aux (x : String) (votes : List (String × Vote)) :
    ∀ d : List (String × Nat),
      x ∈ ((votes.foldl (fun d p => dictIncr d p.2.vote) d).map Prod.fst) →
      x ∈ d.map Prod.fst ∨ ∃ p ∈ votes, p.2.vote = x := by
  induction votes with
  | nil => intro d hd; exact Or.inl hd
  | cons p rest ih =>
    intro d hd
    rcases ih (dictIncr d p.2.vote) hd with h1 | h1
    · rcases dictIncr_keys_sub d p.2.vote x h1 with h2 | h2
      · exact Or.inl h2
      · exact Or.inr ⟨p, List.mem_cons_self _ _, h2.symm⟩
    · rcases h1 with ⟨q, hq, hqx⟩
      exact Or.inr ⟨q, List.mem_cons_of_mem _ hq, hqx⟩

/-- Every key of the tally is the target of some vote. -/
theorem vote_counts_keys_sub (votes : List (String × Vote)) (x : String)
    (h : x ∈ (vote_counts_of votes).map Prod.fst) : ∃ p ∈ votes, p.2.vote = x := by
  rcases vote_counts_keys_aux x votes [] h with h1 | h1
  · simp at h1
  · exact h1

/-- The majority scan is exactly: first tally entry with count at least 3. -/
theorem majority_agent_eq_find (vc : List (String × Nat)) :
    majority_agent vc = (vc.find? (fun p => decide (3 ≤ p.2))).map Prod.fst := by
  induction vc with
  | nil => rfl
  | cons p rest ih =>
    obtain ⟨a, c⟩ := p
    by_cases h : 3 ≤ c
    · simp [majority_agent, ge_iff_le, h, List.find?]
    · simp [majority_agent, ge_iff_le, h, List.find?, ih]

theorem majority_agent_mem (vc : List (String × Nat)) (a : String)
    (h : majority_agent vc = some a) : a ∈ vc.map Prod.fst := by
  induction vc with
  | nil => simp [majority_agent] at h
  | cons p rest ih =>
    obtain ⟨b, c⟩ := p
    by_cases hc : c ≥ 3
    · simp only [majority_agent, if_pos hc, Option.some.injEq] at h
      simp [h]
    · simp only [majority_agent, if_neg hc] at h
      simp [ih h]

theorem filter_map_name (l : List Agent) (nm : String) :
    (l.filter (fun a => a.name ≠ nm)).map Agent.name
      = (l.map Agent.name).filter (fun m => m ≠ nm) := by
  rw [List.filter_map]
  rfl

theorem mk_agents_names (m : String) (ki : Nat) :
    (mkGameEngine m ki).agents.map Agent.name = create_agents.map Agent.name := by
  have hlen : create_agents.length = 5 := rfl
  have h : ki % 5 = 0 ∨ ki % 5 = 1 ∨ ki % 5 = 2 ∨ ki % 5 = 3 ∨ ki % 5 = 4 := by omega
  rcases h with h | h | h | h | h <;> simp only [mkGameEngine, hlen, h] <;> decide

theorem mk_agents_length (m : String) (ki : Nat) :
    (mkGameEngine m ki).agents.length = 5 := by
  have := congrArg List.length (mk_agents_names m ki)
  simpa using this

theorem answers_loop_keys (env : LlmEnv) (s : GameEngine) (q : Agent)
    (question : String) (n : Nat) (l : List Agent) :
    ∀ (acc res : List (String × String)) (log : List LlmCall),
      answers_loop env s q question n l acc = (.ok res, log) →
      (acc.map Prod.fst ++ (l.filter (fun a => a.name ≠ q.name)).map Agent.name).Nodup →
      res.map Prod.fst
        = acc.map Prod.fst ++ (l.filter (fun a => a.name ≠ q.name)).map Agent.name := by
  induction l with
  | nil =>
    intro acc res log h _
    simp only [answers_loop, Prod.mk.injEq] at h
    obtain ⟨h1, _⟩ := h
    obtain rfl : acc = res := by cases h1; rfl
    simp
  | cons a rest ih =>
    intro acc res log h hnd
    by_cases hq : a.name = q.name
    · rw [answers_loop, if_pos hq] at h
      have hf : List.filter (fun x => x.name ≠ q.name) (a :: rest)
          = rest.filter (fun x => x.name ≠ q.name) := by
        simp [List.filter_cons, hq]
      rw [hf] at hnd ⊢
      exact ih acc res log h hnd
    · rw [answers_loop, if_neg hq] at h
      have hf : List.filter (fun x => x.name ≠ q.name) (a :: rest)
          = a :: rest.filter (fun x => x.name ≠ q.name) := by
        simp [List.filter_cons, hq]
      rw [hf] at hnd ⊢
      cases hg : env.gen .answer (answer_prompt_vars s a q question n) with
      | error e => simp [hg] at h
      | ok ans =>
        simp only [hg, Prod.mk.injEq] at h
        obtain ⟨h1, _⟩ := h
        have hnotmem : ¬ a.name ∈ acc.map Prod.fst := by
          intro hmem
          have := (List.nodup_append.1 (by simpa using hnd)).2.2
          exact this hmem (by simp)
        have hacc : (dictSet acc a.name (pyStrip ans)).map Prod.fst
            = acc.map Prod.fst ++ [a.name] := by
          rw [dictSet_of_not_mem acc a.name (pyStrip ans) hnotmem]
          simp
        have hres := ih (dictSet acc a.name (pyStrip ans)) res _ (by
          exact Prod.ext h1 rfl) ?hnd2
        case hnd2 =>
          rw [hacc]
          simpa [List.append_assoc] using hnd
        rw [hres, hacc]
        simp

theorem answers_loop_values (env : LlmEnv) (s : GameEngine) (q : Agent)
    (question : String) (n : Nat) (l : List Agent) :
    ∀ (acc res : List (String × String)) (log : List LlmCall),
      answers_loop env s q question n l acc = (.ok res, log) →
      ∀ p ∈ res, p ∈ acc ∨ ∃ raw, p.2 = pyStrip raw := by
  induction l with
  | nil =>
    intro acc res log h p hp
    simp only [answers_loop, Prod.mk.injEq] at h
    obtain ⟨h1, _⟩ := h
    obtain rfl : acc = res := by cases h1; rfl
    exact Or.inl hp
  | cons a rest ih =>
    intro acc res log h p hp
    by_cases hq : a.name = q.name
    · rw [answers_loop, if_pos hq] at h
      exact ih acc res log h p hp
    · rw [answers_loop, if_neg hq] at h
      cases hg : env.gen .answer (answer_prompt_vars s a q question n) with
      | error e => simp [hg] at h
      | ok ans =>
        simp only [hg, Prod.mk.injEq] at h
        obtain ⟨h1, _⟩ := h
        rcases ih (dictSet acc a.name (pyStrip ans)) res _ (Prod.ext h1 rfl) p hp with
          hmem | hraw
        · rcases mem_dictSet acc a.name (pyStrip ans) p hmem with h2 | h2
          · exact Or.inl h2
          · exact Or.inr ⟨ans, by rw [h2]⟩
        · exact Or.inr hraw

theorem answers_loop_error (env : LlmEnv) (s : GameEngine) (q : Agent)
    (question : String) (n : Nat) (l : List Agent) :
    ∀ (acc : List (String × String)) (e : String) (log : List LlmCall),
      answers_loop env s q question n l acc = (.error e, log) →
      ∃ c ∈ log, env.gen c.1 c.2 = .error e := by
  induction l with
  | nil =>
    intro acc e log h
    simp only [answers_loop, Prod.mk.injEq] at h
    exact absurd h.1 (by simp)
  | cons a rest ih =>
    intro acc e log h
    by_cases hq : a.name = q.name
    · rw [answers_loop, if_pos hq] at h
      exact ih acc e log h
    · rw [answers_loop, if_neg hq] at h
      cases hg : env.gen .answer (answer_prompt_vars s a q question n) with
      | error e2 =>
        simp only [hg, Prod.mk.injEq, Except.error.injEq] at h
        obtain ⟨rfl, rfl⟩ := h
        exact ⟨(.answer, answer_prompt_vars s a q question n), by simp, hg⟩
      | ok ans =>
        simp only [hg, Prod.mk.injEq] at h
        obtain ⟨h1, h2⟩ := h
        obtain ⟨c, hc, hcr⟩ := ih (dictSet acc a.name (pyStrip ans)) e _ (Prod.ext h1 rfl)
        exact ⟨c, h2 ▸ List.mem_cons_of_mem _ hc, hcr⟩

theorem answers_loop_log (env : LlmEnv) (s : GameEngine) (q : Agent)
    (question : String) (n : Nat) (l : List Agent) :
    ∀ (acc : List (String × String)) (c : LlmCall),
      c ∈ (answers_loop env s q question n l acc).2 →
      ∃ a ∈ l, a.name ≠ q.name ∧ c = (.answer, answer_prompt_vars s a q question n) := by
  induction l with
  | nil =>
    intro acc c hc
    simp [answers_loop] at hc
  | cons a rest ih =>
    intro acc c hc
    by_cases hq : a.name = q.name
    · rw [answers_loop, if_pos hq] at hc
      obtain ⟨b, hb, hbq, hcb⟩ := ih acc c hc
      exact ⟨b, List.mem_cons_of_mem _ hb, hbq, hcb⟩
    · rw [answers_loop, if_neg hq] at hc
      cases hg : env.gen .answer (answer_prompt_vars s a q question n) with
      | error e =>
        simp only [hg] at hc
        simp only [List.mem_singleton] at hc
        exact ⟨a, List.mem_cons_self _ _, hq, hc⟩
      | ok ans =>
        simp only [hg] at hc
        rcases List.mem_cons.1 hc with h1 | h1
        · exact ⟨a, List.mem_cons_self _ _, hq, h1⟩
        · obtain ⟨b, hb, hbq, hcb⟩ := ih (dictSet acc a.name (pyStrip ans)) c h1
          exact ⟨b, List.mem_cons_of_mem _ hb, hbq, hcb⟩

theorem answer_prompt_vars_name (s : GameEngine) (a b q : Agent) (question : String) (n : Nat)
    (h : answer_prompt_vars s a q question n = answer_prompt_vars s b q question n) :
    a.name = b.name := by
  simp only [answer_prompt_vars, List.cons.injEq, Prod.mk.injEq] at h
  tauto

theorem answers_loop_log_nodup (env : LlmEnv) (s : GameEngine) (q : Agent)
    (question : String) (n : Nat) (l : List Agent) :
    ∀ acc : List (String × String),
      (l.map Agent.name).Nodup → ((answers_loop env s q question n l acc).2).Nodup := by
  induction l with
  | nil => intro acc _; simp [answers_loop]
  | cons a rest ih =>
    intro acc hnd
    have hnd2 : (rest.map Agent.name).Nodup := (List.nodup_cons.1 (by simpa using hnd)).2
    have hna : ¬ a.name ∈ rest.map Agent.name := (List.nodup_cons.1 (by simpa using hnd)).1
    rw [answers_loop]
    by_cases hq : a.name = q.name
    · rw [if_pos hq]
      exact ih acc hnd2
    · rw [if_neg hq]
      cases hg : env.gen .answer (answer_prompt_vars s a q question n) with
      | error e => simp [hg]
      | ok ans =>
        simp only [hg]
        rw [List.nodup_cons]
        refine ⟨?_, ih (dictSet acc a.name (pyStrip ans)) hnd2⟩
        intro hmem
        obtain ⟨b, hb, _, hcb⟩ :=
          answers_loop_log env s q question n rest (dictSet acc a.name (pyStrip ans)) _ hmem
        have hvars : answer_prompt_vars s a q question n
            = answer_prompt_vars s b q question n := by
          have := congrArg Prod.snd hcb
          simpa using this
        have hab : a.name = b.name := answer_prompt_vars_name s a b q question n hvars
        exact hna (hab ▸ List.mem_map_of_mem Agent.name hb)

theorem run_round_aux_error_spec (s : GameEngine) (env : LlmEnv) (n : Nat)
    (out : Except String RoundData) (st : GameEngine) (log : List LlmCall)
    (h : s.run_round_aux env n = (out, st, log)) (e : String) (he : out = .error e) :
    st.conversation_history = s.conversation_history ∧
    ∃ c ∈ log, env.gen c.1 c.2 = .error e := by
  subst he
  simp only [GameEngine.run_round_aux] at h
  split at h
  next e0 hgen =>
    simp only [Prod.mk.injEq, Except.error.injEq] at h
    obtain ⟨rfl, rfl, rfl⟩ := h
    refine ⟨rfl, ⟨_, List.mem_singleton_self _, ?_⟩⟩
    exact hgen
  next q0 hgen =>
    split at h
    next e0 hgen2 =>
      simp only [Prod.mk.injEq, Except.error.injEq] at h
      obtain ⟨rfl, rfl, rfl⟩ := h
      refine ⟨rfl, ?_⟩
      obtain ⟨c, hc, hcr⟩ :=
        answers_loop_error env _ _ _ n _ [] e0 _ (Prod.ext hgen2 rfl)
      exact ⟨c, List.mem_cons_of_mem _ hc, hcr⟩
    next answers hgen2 =>
      simp at h

theorem run_round_aux_ok_spec (s : GameEngine) (env : LlmEnv) (n : Nat)
    (out : Except String RoundData) (st : GameEngine) (log : List LlmCall)
    (h : s.run_round_aux env n = (out, st, log)) (rec : RoundData) (he : out = .ok rec) :
    st.conversation_history = s.conversation_history ++ [rec] ∧
    rec.questioner = (s.agents.getD s.current_questioner_idx default).name ∧
    rec.round = n := by
  subst he
  simp only [GameEngine.run_round_aux] at h
  split at h
  next e0 hgen => simp at h
  next q0 hgen =>
    split at h
    next e0 hgen2 => simp at h
    next answers hgen2 =>
      simp only [Prod.mk.injEq, Except.ok.injEq] at h
      obtain ⟨rfl, rfl, rfl⟩ := h
      exact ⟨rfl, rfl, rfl⟩

theorem run_round_aux_ok_answers (s : GameEngine) (env : LlmEnv) (n : Nat)
    (out : Except String RoundData) (st : GameEngine) (log : List LlmCall)
    (h : s.run_round_aux env n = (out, st, log)) (rec : RoundData) (he : out = .ok rec)
    (hnd : (s.agents.map Agent.name).Nodup) :
    rec.answers.map Prod.fst
      = (s.agents.map Agent.name).filter
          (fun m => m ≠ (s.agents.getD s.current_questioner_idx default).name) ∧
    ∀ p ∈ rec.answers, ∃ raw, p.2 = pyStrip raw := by
  subst he
  simp only [GameEngine.run_round_aux] at h
  split at h
  next e0 hgen => simp at h
  next q0 hgen =>
    split at h
    next e0 hgen2 => simp at h
    next answers hgen2 =>
      simp only [Prod.mk.injEq, Except.ok.injEq] at h
      obtain ⟨rfl, rfl, rfl⟩ := h
      constructor
      · have hkeys := answers_loop_keys env _ _ _ n _ [] answers _ (Prod.ext hgen2 rfl) ?nd
        case nd =>
          simp only [List.map_nil, List.nil_append]
          rw [filter_map_name]
          exact hnd.filter _
        rw [show (({ round := n, questioner := _, question := _, answers := answers } :
              RoundData)).answers = answers from rfl]
        rw [hkeys]
        simp only [List.map_nil, List.nil_append]
        rw [filter_map_name]
      · intro p hp
        rcases answers_loop_values env _ _ _ n _ [] answers _ (Prod.ext hgen2 rfl) p hp with
          hmem | hr
        · simp at hmem
        · exact hr

theorem run_round_aux_log_nodup (s : GameEngine) (env : LlmEnv) (n : Nat)
    (out : Except String RoundData) (st : GameEngine) (log : List LlmCall)
    (h : s.run_round_aux env n = (out, st, log))
    (hnd : (s.agents.map Agent.name).Nodup) : log.Nodup := by
  simp only [GameEngine.run_round_aux] at h
  split at h
  next e0 hgen =>
    simp only [Prod.mk.injEq] at h
    obtain ⟨-, -, rfl⟩ := h
    simp
  next q0 hgen =>
    split at h
    next e0 hgen2 =>
      simp only [Prod.mk.injEq] at h
      obtain ⟨-, -, rfl⟩ := h
      rw [List.nodup_cons]
      refine ⟨?_, answers_loop_log_nodup env _ _ _ n _ [] hnd⟩
      intro hmem
      obtain ⟨a, _, _, hc⟩ := answers_loop_log env _ _ _ n _ [] _ hmem
      exact absurd (congrArg Prod.fst hc) (by simp)
    next answers hgen2 =>
      simp only [Prod.mk.injEq] at h
      obtain ⟨-, -, rfl⟩ := h
      rw [List.nodup_cons]
      refine ⟨?_, answers_loop_log_nodup env _ _ _ n _ [] hnd⟩
      intro hmem
      obtain ⟨a, _, _, hc⟩ := answers_loop_log env _ _ _ n _ [] _ hmem
      exact absurd (congrArg Prod.fst hc) (by simp)

theorem getD_mod_mem (l : List String) (i : Nat) (h : l ≠ []) :
    l.getD (i % l.length) "" ∈ l := by
  have hlen : 0 < l.length := List.length_pos.2 h
  have hlt : i % l.length < l.length := Nat.mod_lt _ hlen
  rw [List.getD_eq_getElem?_getD, List.getElem?_eq_getElem hlt]
  exact List.getElem_mem hlt

theorem vote_loop_target_mem
    (env : Nat → List (String × String) → Except String (String × String))
    (s : GameEngine) (agent : Agent) (valid_agents : List String) (rand_pick : Nat) :
    ∀ (attempts : List Nat) (prev : String), attempts ≠ [] → valid_agents ≠ [] →
      (vote_loop env s agent valid_agents rand_pick attempts prev).1 ∈ valid_agents := by
  intro attempts
  induction attempts with
  | nil => intro prev h _; exact absurd rfl h
  | cons attempt rest ih =>
    intro prev _ hv
    simp only [vote_loop]
    split
    next vt rs heq =>
      split at heq
      next e henv => exact absurd heq (by simp)
      next t r henv =>
        split at heq
        next hmem =>
          obtain ⟨rfl, rfl⟩ : t = vt ∧ r = rs := by simpa using heq
          exact hmem
        next hmem => exact absurd heq (by simp)
    next e heq =>
      split
      · exact getD_mod_mem valid_agents _ hv
      · exact ih e (by simp) hv

theorem vote_loop_all_fail
    (env : Nat → List (String × String) → Except String (String × String))
    (s : GameEngine) (agent : Agent) (valid_agents : List String) (rand_pick : Nat)
    (h0 : attempt_fails (env 0 (voting_prompt_vars s agent valid_agents ""))
        valid_agents = true)
    (h1 : attempt_fails (env 1 (voting_prompt_vars s agent valid_agents
        (retry_guidance_text valid_agents ""))) valid_agents = true)
    (h2 : attempt_fails (env 2 (voting_prompt_vars s agent valid_agents
        (retry_guidance_text valid_agents ""))) valid_agents = true) :
    vote_loop env s agent valid_agents rand_pick [0, 1, 2] ""
      = (valid_agents.getD (rand_pick % valid_agents.length) "",
         fallback_reasoning (attempt_error
           (env 2 (voting_prompt_vars s agent valid_agents
             (retry_guidance_text valid_agents ""))) valid_agents),
         [voting_prompt_vars s agent valid_agents "",
          voting_prompt_vars s agent valid_agents (retry_guidance_text valid_agents ""),
          voting_prompt_vars s agent valid_agents (retry_guidance_text valid_agents "")]) := by
  cases hE0 : env 0 (voting_prompt_vars s agent valid_agents "") with
  | error e0 =>
    cases hE1 : env 1 (voting_prompt_vars s agent valid_agents
        (retry_guidance_text valid_agents "")) with
    | error e1 =>
      cases hE2 : env 2 (voting_prompt_vars s agent valid_agents
          (retry_guidance_text valid_agents "")) with
      | error e2 => simp [vote_loop, hE0, hE1, hE2, attempt_error]
      | ok p2 =>
        obtain ⟨t2, r2⟩ := p2
        simp only [attempt_fails, hE2, decide_eq_true_eq] at h2
        simp [vote_loop, hE0, hE1, hE2, attempt_error, h2]
    | ok p1 =>
      obtain ⟨t1, r1⟩ := p1
      simp only [attempt_fails, hE1, decide_eq_true_eq] at h1
      cases hE2 : env 2 (voting_prompt_vars s agent valid_agents
          (retry_guidance_text valid_agents "")) with
      | error e2 => simp [vote_loop, hE0, hE1, hE2, attempt_error, h1]
      | ok p2 =>
        obtain ⟨t2, r2⟩ := p2
        simp only [attempt_fails, hE2, decide_eq_true_eq] at h2
        simp [vote_loop, hE0, hE1, hE2, attempt_error, h1, h2]
  | ok p0 =>
    obtain ⟨t0, r0⟩ := p0
    simp only [attempt_fails, hE0, decide_eq_true_eq] at h0
    cases hE1 : env 1 (voting_prompt_vars s agent valid_agents
        (retry_guidance_text valid_agents "")) with
    | error e1 =>
      cases hE2 : env 2 (voting_prompt_vars s agent valid_agents
          (retry_guidance_text valid_agents "")) with
      | error e2 => simp [vote_loop, hE0, hE1, hE2, attempt_error, h0]
      | ok p2 =>
        obtain ⟨t2, r2⟩ := p2
        simp only [attempt_fails, hE2, decide_eq_true_eq] at h2
        simp [vote_loop, hE0, hE1, hE2, attempt_error, h0, h2]
    | ok p1 =>
      obtain ⟨t1, r1⟩ := p1
      simp only [attempt_fails, hE1, decide_eq_true_eq] at h1
      cases hE2 : env 2 (voting_prompt_vars s agent valid_agents
          (retry_guidance_text valid_agents "")) with
      | error e2 => simp [vote_loop, hE0, hE1, hE2, attempt_error, h0, h1]
      | ok p2 =>
        obtain ⟨t2, r2⟩ := p2
        simp only [attempt_fails, hE2, decide_eq_true_eq] at h2
        simp [vote_loop, hE0, hE1, hE2, attempt_error, h0, h1, h2]

theorem conduct_voting_fold (s : GameEngine)
    (env : String → Nat → List (String × String) → Except String (String × String))
    (rand : String → Nat) (l : List Agent) :
    ∀ (acc1 : List (String × Vote)) (acc2 : List (String × List (List (String × String)))),
    (acc1.map Prod.fst ++ l.map Agent.name).Nodup →
    (acc2.map Prod.fst ++ l.map Agent.name).Nodup →
    l.foldl
      (fun acc agent =>
        let r := agent_vote_result s env rand agent
        (dictSet acc.1 agent.name { vote := r.1, reasoning := r.2.1 },
         dictSet acc.2 agent.name r.2.2))
      (acc1, acc2)
      = (acc1 ++ l.map (fun a => (a.name,
            Vote.mk (agent_vote_result s env rand a).1 (agent_vote_result s env rand a).2.1)),
         acc2 ++ l.map (fun a => (a.name, (agent_vote_result s env rand a).2.2))) := by
  induction l with
  | nil => intro acc1 acc2 _ _; simp
  | cons a rest ih =>
    intro acc1 acc2 hnd1 hnd2
    have hna1 : ¬ a.name ∈ acc1.map Prod.fst := by
      have hd := (List.nodup_append.1 (by simpa using hnd1)).2.2
      exact fun hm => hd hm (by simp)
    have hna2 : ¬ a.name ∈ acc2.map Prod.fst := by
      have hd := (List.nodup_append.1 (by simpa using hnd2)).2.2
      exact fun hm => hd hm (by simp)
    simp only [List.foldl_cons]
    rw [dictSet_of_not_mem _ _ _ hna1, dictSet_of_not_mem _ _ _ hna2]
    rw [ih (acc1 ++ [(a.name, _)]) (acc2 ++ [(a.name, _)]) ?h1 ?h2]
    case h1 =>
      simp only [List.map_append, List.map_cons, List.map_nil, List.append_assoc,
        List.singleton_append]
      simpa using hnd1
    case h2 =>
      simp only [List.map_append, List.map_cons, List.map_nil, List.append_assoc,
        List.singleton_append]
      simpa using hnd2
    simp

theorem conduct_voting_eq (s : GameEngine)
    (env : String → Nat → List (String × String) → Except String (String × String))
    (rand : String → Nat) (hnd : (s.agents.map Agent.name).Nodup) :
    s.conduct_voting env rand
      = s.agents.map (fun a => (a.name,
          Vote.mk (agent_vote_result s env rand a).1 (agent_vote_result s env rand a).2.1)) := by
  unfold GameEngine.conduct_voting GameEngine.conduct_voting_aux
  rw [conduct_voting_fold s env rand s.agents [] [] (by simpa using hnd) (by simpa using hnd)]
  simp

theorem conduct_voting_trace_eq (s : GameEngine)
    (env : String → Nat → List (String × String) → Except String (String × String))
    (rand : String → Nat) (hnd : (s.agents.map Agent.name).Nodup) :
    s.conduct_voting_trace env rand
      = s.agents.map (fun a => (a.name, (agent_vote_result s env rand a).2.2)) := by
  unfold GameEngine.conduct_voting_trace GameEngine.conduct_voting_aux
  rw [conduct_voting_fold s env rand s.agents [] [] (by simpa using hnd) (by simpa using hnd)]
  simp

theorem create_agents_names_nodup : (create_agents.map Agent.name).Nodup := by decide

theorem create_valid_facts :
    ∀ nm ∈ create_agents.map Agent.name,
      ((create_agents.map Agent.name).filter (fun m => m ≠ nm)) ≠ [] ∧
      ¬ nm ∈ ((create_agents.map Agent.name).filter (fun m => m ≠ nm)) ∧
      ∀ x ∈ ((create_agents.map Agent.name).filter (fun m => m ≠ nm)),
        x ∈ create_agents.map Agent.name := by decide

theorem valid_agents_for_names (agents : List Agent) (a : Agent) :
    valid_agents_for agents a = (agents.map Agent.name).filter (fun m => m ≠ a.name) := by
  unfold valid_agents_for
  exact filter_map_name agents a.name

theorem create_names_ne_empty :
    ∀ x ∈ create_agents.map Agent.name, x ≠ "" := by decide

theorem conduct_voting_keys (s : GameEngine)
    (env : String → Nat → List (String × String) → Except String (String × String))
    (rand : String → Nat)
    (hnames : s.agents.map Agent.name = create_agents.map Agent.name) :
    (s.conduct_voting env rand).map Prod.fst = s.agents.map Agent.name := by
  have hnd : (s.agents.map Agent.name).Nodup := by
    rw [hnames]; exact create_agents_names_nodup
  rw [conduct_voting_eq s env rand hnd, List.map_map]
  rfl

theorem conduct_voting_target_mem (s : GameEngine)
    (env : String → Nat → List (String × String) → Except String (String × String))
    (rand : String → Nat)
    (hnames : s.agents.map Agent.name = create_agents.map Agent.name) :
    ∀ p ∈ s.conduct_voting env rand,
      p.2.vote ∈ s.agents.map Agent.name ∧ p.2.vote ≠ p.1 := by
  have hnd : (s.agents.map Agent.name).Nodup := by
    rw [hnames]; exact create_agents_names_nodup
  intro p hp
  rw [conduct_voting_eq s env rand hnd] at hp
  obtain ⟨a, ha, rfl⟩ := List.mem_map.1 hp
  have hone : a.name ∈ create_agents.map Agent.name := by
    rw [← hnames]; exact List.mem_map_of_mem Agent.name ha
  have hv : valid_agents_for s.agents a
      = (create_agents.map Agent.name).filter (fun m => m ≠ a.name) := by
    rw [valid_agents_for_names, hnames]
  have hfacts := create_valid_facts a.name hone
  have hvne : valid_agents_for s.agents a ≠ [] := by
    rw [hv]; exact hfacts.1
  have hmem : (agent_vote_result s env rand a).1 ∈ valid_agents_for s.agents a :=
    vote_loop_target_mem (env a.name) s a (valid_agents_for s.agents a)
      (rand a.name) (List.range max_attempts) "" (by decide) hvne
  constructor
  · rw [hnames]
    exact hfacts.2.2 _ (hv ▸ hmem)
  · have hne := (List.mem_filter.1 (hv ▸ hmem)).2
    simpa using hne

/-- Claim C1: for every agent in the game, `conduct_voting` returns exactly one
vote keyed by that agent's name (keys are exactly the agent names, in registry
order), the vote's target is always a known agent name different from the
voter (so a parsed self-vote is never accepted as-is), and when all 3 attempts
fail for an agent the entry is the uniformly random valid target supplied by
the random source together with the synthesized error reasoning string. -/
theorem claim_C1 (s : GameEngine)
    (env : String → Nat → List (String × String) → Except String (String × String))
    (rand : String → Nat)
    (hnames : s.agents.map Agent.name = create_agents.map Agent.name) :
    ((s.conduct_voting env rand).map Prod.fst = s.agents.map Agent.name)
    ∧ (∀ p ∈ s.conduct_voting env rand,
        p.2.vote ∈ s.agents.map Agent.name ∧ p.2.vote ≠ p.1)
    ∧ (∀ a ∈ s.agents,
        attempt_fails (env a.name 0 (voting_prompt_vars s a (valid_agents_for s.agents a) ""))
            (valid_agents_for s.agents a) = true →
        attempt_fails (env a.name 1 (voting_prompt_vars s a (valid_agents_for s.agents a)
            (retry_guidance_text (valid_agents_for s.agents a) "")))
            (valid_agents_for s.agents a) = true →
        attempt_fails (env a.name 2 (voting_prompt_vars s a (valid_agents_for s.agents a)
            (retry_guidance_text (valid_agents_for s.agents a) "")))
            (valid_agents_for s.agents a) = true →
        (a.name, Vote.mk
            ((valid_agents_for s.agents a).getD
              (rand a.name % (valid_agents_for s.agents a).length) "")
            (fallback_reasoning (attempt_error
              (env a.name 2 (voting_prompt_vars s a (valid_agents_for s.agents a)
                (retry_guidance_text (valid_agents_for s.agents a) "")))
              (valid_agents_for s.agents a))))
          ∈ s.conduct_voting env rand) := by
  have hnd : (s.agents.map Agent.name).Nodup := by
    rw [hnames]; exact create_agents_names_nodup
  have heq := conduct_voting_eq s env rand hnd
  refine ⟨conduct_voting_keys s env rand hnames,
    conduct_voting_target_mem s env rand hnames, ?_⟩
  · intro a ha hf0 hf1 hf2
    rw [heq]
    have hall := vote_loop_all_fail (env a.name) s a (valid_agents_for s.agents a)
      (rand a.name) hf0 hf1 hf2
    have h1 : agent_vote_result s env rand a
        = ((valid_agents_for s.agents a).getD
              (rand a.name % (valid_agents_for s.agents a).length) "",
           fallback_reasoning (attempt_error
              (env a.name 2 (voting_prompt_vars s a (valid_agents_for s.agents a)
                (retry_guidance_text (valid_agents_for s.agents a) "")))
              (valid_agents_for s.agents a)),
           [voting_prompt_vars s a (valid_agents_for s.agents a) "",
            voting_prompt_vars s a (valid_agents_for s.agents a)
              (retry_guidance_text (valid_agents_for s.agents a) ""),
            voting_prompt_vars s a (valid_agents_for s.agents a)
              (retry_guidance_text (valid_agents_for s.agents a) "")]) := hall
    refine List.mem_map.2 ⟨a, ha, ?_⟩
    rw [h1]

theorem claim_C1_witness :
    (((mkGameEngine "m" 0).conduct_voting venvFail randZero).map Prod.fst
        = (mkGameEngine "m" 0).agents.map Agent.name)
    ∧ ("Openness Agent", Vote.mk "Conscientiousness Agent"
        (fallback_reasoning "E1")) ∈ (mkGameEngine "m" 0).conduct_voting venvFail randZero := by
  have h := claim_C1 (mkGameEngine "m" 0) venvFail randZero (mk_agents_names "m" 0)
  refine ⟨h.1, ?_⟩
  exact h.2.2 ⟨"Openness Agent", "openness", true⟩ (by decide) rfl rfl rfl

/-- Claim C10: `conduct_voting` never propagates a failure to its caller:
for every environment it returns normally with one vote per agent, and even
when every underlying attempt (including the text-generation call itself)
fails terminally, each agent's entry is the random fallback vote whose
reasoning embeds the last attempt's error. -/
theorem claim_C10 (s : GameEngine) (rand : String → Nat)
    (hnames : s.agents.map Agent.name = create_agents.map Agent.name) :
    (∀ env, ((s.conduct_voting env rand).map Prod.fst = s.agents.map Agent.name))
    ∧ (∀ errf : String → Nat → List (String × String) → String, ∀ a ∈ s.agents,
        (a.name, Vote.mk
            ((valid_agents_for s.agents a).getD
              (rand a.name % (valid_agents_for s.agents a).length) "")
            (fallback_reasoning (errf a.name 2 (voting_prompt_vars s a
              (valid_agents_for s.agents a)
              (retry_guidance_text (valid_agents_for s.agents a) "")))))
          ∈ s.conduct_voting (fun nm i vars => .error (errf nm i vars)) rand) := by
  have hnd : (s.agents.map Agent.name).Nodup := by
    rw [hnames]; exact create_agents_names_nodup
  constructor
  · intro env
    rw [conduct_voting_eq s env rand hnd, List.map_map]
    rfl
  · intro errf a ha
    have hall := vote_loop_all_fail
      ((fun nm i vars => (Except.error (errf nm i vars) : Except String (String × String))) a.name)
      s a (valid_agents_for s.agents a) (rand a.name) rfl rfl rfl
    rw [conduct_voting_eq s _ rand hnd]
    refine List.mem_map.2 ⟨a, ha, ?_⟩
    have h1 : agent_vote_result s (fun nm i vars => .error (errf nm i vars)) rand a
        = ((valid_agents_for s.agents a).getD
              (rand a.name % (valid_agents_for s.agents a).length) "",
           fallback_reasoning (errf a.name 2 (voting_prompt_vars s a
              (valid_agents_for s.agents a)
              (retry_guidance_text (valid_agents_for s.agents a) ""))),
           [voting_prompt_vars s a (valid_agents_for s.agents a) "",
            voting_prompt_vars s a (valid_agents_for s.agents a)
              (retry_guidance_text (valid_agents_for s.agents a) ""),
            voting_prompt_vars s a (valid_agents_for s.agents a)
              (retry_guidance_text (valid_agents_for s.agents a) "")]) := hall
    rw [h1]

theorem claim_C10_witness :
    (((mkGameEngine "m" 0).conduct_voting venvCycle randZero).map Prod.fst
        = (mkGameEngine "m" 0).agents.map Agent.name)
    ∧ ("Openness Agent", Vote.mk "Conscientiousness Agent" (fallback_reasoning "E1"))
        ∈ (mkGameEngine "m" 0).conduct_voting (fun _ _ _ => .error "E1") randZero := by
  have h := claim_C10 (mkGameEngine "m" 0) randZero (mk_agents_names "m" 0)
  exact ⟨h.1 venvCycle,
    h.2 (fun _ _ _ => "E1") ⟨"Openness Agent", "openness", true⟩ (by decide)⟩

theorem run_round_aux_snd (s : GameEngine) (env : LlmEnv) (n : Nat) :
    ∃ hist2, (s.run_round_aux env n).2.1 =
      { s with current_questioner_idx := (s.current_questioner_idx + 1) % s.agents.length,
               conversation_history := hist2 } := by
  simp only [GameEngine.run_round_aux]
  split
  · exact ⟨s.conversation_history, rfl⟩
  · split
    · exact ⟨s.conversation_history, rfl⟩
    · exact ⟨_, rfl⟩

theorem run_round_state (s : GameEngine) (env : LlmEnv) (n : Nat) :
    (s.run_round env n).2.agents = s.agents ∧
    (s.run_round env n).2.current_questioner_idx
      = (s.current_questioner_idx + 1) % s.agents.length := by
  obtain ⟨h2, hh⟩ := run_round_aux_snd s env n
  constructor
  · rw [show (s.run_round env n).2 = (s.run_round_aux env n).2.1 from rfl, hh]
  · rw [show (s.run_round env n).2 = (s.run_round_aux env n).2.1 from rfl, hh]

theorem run_calls_state (env : LlmEnv) (ns : List Nat) :
    ∀ s : GameEngine, s.current_questioner_idx < s.agents.length →
      (run_calls s env ns).agents = s.agents ∧
      (run_calls s env ns).current_questioner_idx
        = (s.current_questioner_idx + ns.length) % s.agents.length := by
  induction ns with
  | nil =>
    intro s h
    refine ⟨rfl, ?_⟩
    rw [List.length_nil, Nat.add_zero, Nat.mod_eq_of_lt h]
    rfl
  | cons n ns ih =>
    intro s h
    have hlen : 0 < s.agents.length := by omega
    obtain ⟨ha, hi⟩ := run_round_state s env n
    have h2 : ((s.run_round env n).2).current_questioner_idx
        < ((s.run_round env n).2).agents.length := by
      rw [ha, hi]; exact Nat.mod_lt _ hlen
    obtain ⟨ha2, hi2⟩ := ih ((s.run_round env n).2) h2
    refine ⟨?_, ?_⟩
    · rw [show run_calls s env (n :: ns) = run_calls ((s.run_round env n).2) env ns from rfl,
        ha2, ha]
    · rw [show run_calls s env (n :: ns) = run_calls ((s.run_round env n).2) env ns from rfl,
        hi2, ha, hi, Nat.mod_add_mod]
      have harith : s.current_questioner_idx + 1 + ns.length
          = s.current_questioner_idx + (n :: ns).length := by
        simp [List.length_cons]
        omega
      rw [harith]

theorem run_round_ok_parts (s : GameEngine) (env : LlmEnv) (n : Nat) (rec : RoundData)
    (s2 : GameEngine) (h : s.run_round env n = (.ok rec, s2)) :
    rec.questioner = (s.agents.getD s.current_questioner_idx default).name ∧
    s2.conversation_history = s.conversation_history ++ [rec] ∧ rec.round = n := by
  have h1 : (s.run_round_aux env n).1 = .ok rec := congrArg Prod.fst h
  have h2 : (s.run_round_aux env n).2.1 = s2 := congrArg Prod.snd h
  obtain ⟨hh, hq, hr⟩ := run_round_aux_ok_spec s env n _ _ _ rfl rec h1
  exact ⟨hq, h2 ▸ hh, hr⟩

theorem answers_loop_ok_of (env : LlmEnv) (s : GameEngine) (q : Agent)
    (question : String) (n : Nat)
    (hok : ∀ tmpl vars, ∃ t, env.gen tmpl vars = .ok t) :
    ∀ (l : List Agent) (acc : List (String × String)),
      ∃ res, (answers_loop env s q question n l acc).1 = .ok res := by
  intro l
  induction l with
  | nil => intro acc; exact ⟨acc, rfl⟩
  | cons a rest ih =>
    intro acc
    by_cases hq : a.name = q.name
    · rw [answers_loop, if_pos hq]
      exact ih acc
    · rw [answers_loop, if_neg hq]
      obtain ⟨t, ht⟩ := hok .answer (answer_prompt_vars s a q question n)
      obtain ⟨res, hres⟩ := ih (dictSet acc a.name (pyStrip t))
      refine ⟨res, ?_⟩
      simp only [ht]
      exact hres

theorem run_round_ok_of (s : GameEngine) (env : LlmEnv) (n : Nat)
    (hok : ∀ tmpl vars, ∃ t, env.gen tmpl vars = .ok t) :
    ∃ rec s2, s.run_round env n = (.ok rec, s2) := by
  simp only [GameEngine.run_round, GameEngine.run_round_aux]
  split
  next e0 hgen =>
    obtain ⟨t, ht⟩ := hok .question _
    rw [ht] at hgen
    exact absurd hgen (by simp)
  next q0 hgen =>
    split
    next e0 hgen2 =>
      obtain ⟨res, hres⟩ := answers_loop_ok_of env _ _ _ n hok _ []
      rw [hres] at hgen2
      exact absurd hgen2 (by simp)
    next answers hgen2 =>
      exact ⟨_, _, rfl⟩

theorem getD_name (l : List Agent) (k : Nat) :
    (l.getD k default).name = (l.map Agent.name).getD k "" := by
  induction l generalizing k with
  | nil => cases k <;> rfl
  | cons a rest ih =>
    cases k with
    | zero => rfl
    | succ k2 =>
      simp only [List.getD_cons_succ, List.map_cons]
      exact ih k2

/-- Claim C2 counterexample: on a fresh engine whose very first call is
`run_round` with round number 2, the questioner is the Openness agent
(rotation counter 0), not `agents[(2 - 1) mod 5]` as the claim requires:
questioner selection follows the internal call-history counter, not the
round-number argument. -/
theorem claim_C2_counterexample :
    ∃ rec s2, (mkGameEngine "m" 0).run_round envOk 2 = (.ok rec, s2)
      ∧ rec.questioner = "Openness Agent"
      ∧ ((mkGameEngine "m" 0).agents.getD ((2 - 1) % 5) default).name
          = "Conscientiousness Agent"
      ∧ rec.questioner ≠ ((mkGameEngine "m" 0).agents.getD ((2 - 1) % 5) default).name := by
  refine ⟨_, _, rfl, rfl, rfl, by decide⟩

/-- Claim C2 amended: the questioner of a `run_round` call is
`agents[k mod 5]` where `k` is the number of `run_round` calls already made
on the engine, independent of every round-number argument; when the driver
passes round numbers sequentially starting at 1 (as `app.py` does), the k-th
call carries round number k+1... i.e. questioner(n) = agents[(n-1) mod 5]
coincides with this only under that sequential driver. -/
theorem claim_C2_amended (m : String) (ki : Nat) (env : LlmEnv) (ns : List Nat) (n : Nat)
    (rec : RoundData) (s2 : GameEngine)
    (h : (run_calls (mkGameEngine m ki) env ns).run_round env n = (.ok rec, s2)) :
    rec.questioner = ((mkGameEngine m ki).agents.getD (ns.length % 5) default).name := by
  have hlen := mk_agents_length m ki
  obtain ⟨ha, hi⟩ := run_calls_state env ns (mkGameEngine m ki)
    (by rw [show (mkGameEngine m ki).current_questioner_idx = 0 from rfl, hlen]; omega)
  obtain ⟨hq, _, _⟩ := run_round_ok_parts _ env n rec s2 h
  rw [hq, ha, hi, hlen]
  rw [show (mkGameEngine m ki).current_questioner_idx = 0 from rfl, Nat.zero_add]

theorem claim_C2_witness :
    ∃ rec s2, (run_calls (mkGameEngine "m" 0) envOk [1, 2]).run_round envOk 3 = (.ok rec, s2)
      ∧ rec.questioner
          = ((mkGameEngine "m" 0).agents.getD (([1, 2] : List Nat).length % 5) default).name := by
  refine ⟨_, _, rfl, ?_⟩
  exact claim_C2_amended "m" 0 envOk [1, 2] 3 _ _ rfl

/-- Claim C4 evaluation at the failing input: when the Openness agent's first
vote attempt fails with error `"E1"`, the retry guidance in the prompt
variables of the second attempt is built from a `previous_error` that the
source re-initializes to the empty string at the top of the loop iteration
(game_engine.py line 173), so the guidance does not contain `"E1"` — the
recorded error of line 240 never reaches the prompt. -/
theorem claim_C4_code_bug :
    ∃ tr, ((mkGameEngine "m" 0).conduct_voting_trace venvC4 randZero).lookup "Openness Agent"
        = some tr
      ∧ tr.length = 2
      ∧ (tr.getD 1 []).lookup "retry_guidance"
          = some (retry_guidance_text
              ["Conscientiousness Agent", "Extraversion Agent",
               "Agreeableness Agent", "Neuroticism Agent"] "")
      ∧ ¬ ("E1".data <:+: (retry_guidance_text
              ["Conscientiousness Agent", "Extraversion Agent",
               "Agreeableness Agent", "Neuroticism Agent"] "").data) := by
  refine ⟨_, rfl, rfl, rfl, ?_⟩
  intro hinf
  have h1 : '1' ∈ (retry_guidance_text
      ["Conscientiousness Agent", "Extraversion Agent",
       "Agreeableness Agent", "Neuroticism Agent"] "").data :=
    hinf.subset (by decide)
  exact absurd h1 (by decide)

/-- Claim C5 counterexample: on a fresh engine (ledger length 0), a
`run_round` call with round number 7 — not one greater than the ledger
length — succeeds and appends its record without any failure: no
sequence-violation check exists. -/
theorem claim_C5_counterexample :
    (mkGameEngine "m" 0).conversation_history.length = 0
    ∧ ∃ rec s2, (mkGameEngine "m" 0).run_round envOk 7 = (.ok rec, s2)
        ∧ rec.round = 7 ∧ s2.conversation_history = [rec] := by
  exact ⟨rfl, _, _, rfl, rfl, rfl⟩

/-- Claim C5 amended: appending to the ledger never fails: whenever all
generation calls succeed, `run_round` appends the assembled record with its
given round number unconditionally, even when that round number does not
continue the contiguous 1-based sequence; contiguity is guaranteed only by
the driver passing sequential round numbers. -/
theorem claim_C5_amended (s : GameEngine) (env : LlmEnv) (n : Nat)
    (_hn : n ≠ s.conversation_history.length + 1)
    (hok : ∀ tmpl vars, ∃ t, env.gen tmpl vars = .ok t) :
    ∃ rec s2, s.run_round env n = (.ok rec, s2)
      ∧ rec.round = n
      ∧ s2.conversation_history = s.conversation_history ++ [rec] := by
  obtain ⟨rec, s2, h⟩ := run_round_ok_of s env n hok
  obtain ⟨_, hh, hr⟩ := run_round_ok_parts s env n rec s2 h
  exact ⟨rec, s2, h, hr, hh⟩

theorem claim_C5_witness :
    ∃ rec s2, (mkGameEngine "m" 0).run_round envOk 7 = (.ok rec, s2)
      ∧ rec.round = 7
      ∧ s2.conversation_history = (mkGameEngine "m" 0).conversation_history ++ [rec] :=
  claim_C5_amended (mkGameEngine "m" 0) envOk 7 (by decide)
    (fun tmpl vars => ⟨"ok", rfl⟩)

/-- Claim C6: if any underlying text-generation call fails during
`run_round`, the failure propagates to the caller unmodified (the returned
error is literally the error produced by one of the issued generation
requests), the conversation ledger does not grow, and no generation request
is ever issued twice (no internal retry: with unique agent names the call
log is duplicate-free); the ledger grows, by exactly the returned record,
only when the question and all answers succeeded. -/
theorem claim_C6 (s : GameEngine) (env : LlmEnv) (n : Nat)
    (out : Except String RoundData) (st : GameEngine) (log : List LlmCall)
    (h : s.run_round_aux env n = (out, st, log)) :
    (∀ e, out = .error e →
        st.conversation_history = s.conversation_history
        ∧ ∃ c ∈ log, env.gen c.1 c.2 = .error e)
    ∧ (∀ rec, out = .ok rec →
        st.conversation_history = s.conversation_history ++ [rec])
    ∧ ((s.agents.map Agent.name).Nodup → log.Nodup) := by
  refine ⟨?_, ?_, ?_⟩
  · intro e he
    exact run_round_aux_error_spec s env n out st log h e he
  · intro rec he
    exact (run_round_aux_ok_spec s env n out st log h rec he).1
  · intro hnd
    exact run_round_aux_log_nodup s env n out st log h hnd

theorem claim_C6_witness :
    ((mkGameEngine "m" 0).run_round_aux envBad 1).2.1.conversation_history
        = (mkGameEngine "m" 0).conversation_history
    ∧ ∃ c ∈ ((mkGameEngine "m" 0).run_round_aux envBad 1).2.2,
        envBad.gen c.1 c.2 = .error "boom" :=
  (claim_C6 (mkGameEngine "m" 0) envBad 1 _ _ _ rfl).1 "boom" rfl

/-- Claim C8: for every completed round, the record's answers mapping has
key list exactly the agent-name list minus the questioner's name, in registry
iteration order (hence size 4 of 5), and every stored answer text is the
stripped form of a generated text. -/
theorem claim_C8 (s : GameEngine) (env : LlmEnv) (n : Nat) (rec : RoundData)
    (s2 : GameEngine)
    (hnames : s.agents.map Agent.name = create_agents.map Agent.name)
    (h : s.run_round env n = (.ok rec, s2)) :
    rec.answers.map Prod.fst
      = (s.agents.map Agent.name).filter
          (fun m => m ≠ (s.agents.getD s.current_questioner_idx default).name)
    ∧ (s.current_questioner_idx < 5 → rec.answers.length = 4)
    ∧ ∀ p ∈ rec.answers, ∃ raw, p.2 = pyStrip raw := by
  have h1 : (s.run_round_aux env n).1 = .ok rec := congrArg Prod.fst h
  have hnd : (s.agents.map Agent.name).Nodup := by
    rw [hnames]; exact create_agents_names_nodup
  obtain ⟨hkeys, hvals⟩ := run_round_aux_ok_answers s env n _ _ _ rfl rec h1 hnd
  refine ⟨hkeys, ?_, hvals⟩
  intro hidx
  have hq : (s.agents.getD s.current_questioner_idx default).name
      = (create_agents.map Agent.name).getD s.current_questioner_idx "" := by
    rw [getD_name, hnames]
  rw [← List.length_map _ Prod.fst, hkeys, hnames, hq]
  have h5 : s.current_questioner_idx = 0 ∨ s.current_questioner_idx = 1 ∨
      s.current_questioner_idx = 2 ∨ s.current_questioner_idx = 3 ∨
      s.current_questioner_idx = 4 := by omega
  rcases h5 with h5 | h5 | h5 | h5 | h5 <;> rw [h5] <;> decide

theorem claim_C8_witness :
    ∃ rec s2, (mkGameEngine "m" 0).run_round envOk 1 = (.ok rec, s2)
      ∧ rec.answers.map Prod.fst
          = ["Conscientiousness Agent", "Extraversion Agent",
             "Agreeableness Agent", "Neuroticism Agent"]
      ∧ rec.answers.length = 4 := by
  refine ⟨_, _, rfl, ?_, ?_⟩
  · exact (claim_C8 (mkGameEngine "m" 0) envOk 1 _ _ (mk_agents_names "m" 0) rfl).1.trans
      (by decide)
  · exact (claim_C8 (mkGameEngine "m" 0) envOk 1 _ _ (mk_agents_names "m" 0) rfl).2.1
      (by decide)

/-- Claim C9 counterexample: a `run_round` call does not leave the engine's
conversation ledger unchanged: on a fresh engine one successful call already
appends the new record to `conversation_history` itself. -/
theorem claim_C9_counterexample :
    ((mkGameEngine "m" 0).run_round envOk 1).2.conversation_history
      ≠ (mkGameEngine "m" 0).conversation_history := by
  decide

/-- Claim C9 amended: `run_round` assembles the record, itself appends it to
the engine's conversation ledger, and returns it; the driver separately
appends the returned record to its own `game_log` and advances the session
round counter. -/
theorem claim_C9_amended (as : AppState) (env : LlmEnv) (rec : RoundData)
    (eng : GameEngine)
    (h : as.engine.run_round env as.current_round = (.ok rec, eng)) :
    (run_game_round_step env as).game_log = as.game_log ++ [rec]
    ∧ (run_game_round_step env as).engine.conversation_history
        = as.engine.conversation_history ++ [rec]
    ∧ (run_game_round_step env as).current_round = as.current_round + 1 := by
  obtain ⟨_, hh, _⟩ := run_round_ok_parts as.engine env as.current_round rec eng h
  simp only [run_game_round_step]
  rw [show ({ as with current_questioner := (as.engine.agents.getD
      ((as.current_round - 1) % as.engine.agents.length) default).name } : AppState).engine
    = as.engine from rfl]
  rw [show ({ as with current_questioner := (as.engine.agents.getD
      ((as.current_round - 1) % as.engine.agents.length) default).name } : AppState).current_round
    = as.current_round from rfl]
  rw [h]
  exact ⟨rfl, hh, rfl⟩

theorem claim_C9_witness :
    ∃ rec eng, (init_new_game "m" 0).engine.run_round envOk
        (init_new_game "m" 0).current_round = (.ok rec, eng)
      ∧ (run_game_round_step envOk (init_new_game "m" 0)).game_log
          = (init_new_game "m" 0).game_log ++ [rec]
      ∧ (run_game_round_step envOk (init_new_game "m" 0)).current_round
          = (init_new_game "m" 0).current_round + 1 := by
  refine ⟨_, _, rfl, ?_, ?_⟩
  · exact (claim_C9_amended (init_new_game "m" 0) envOk _ _ rfl).1
  · exact (claim_C9_amended (init_new_game "m" 0) envOk _ _ rfl).2.2

/-- Claim C3: the tally counts votes per target; `majority_agent` is exactly
the first target in tally-iteration order with count at least 3 (none when no
target reaches 3, as in the 2-2-1 example); and `correctly_identified` is
a boolean that is true exactly when the majority agent equals the (nonempty)
true killer name, and false — never null — whenever there is no majority. -/
theorem claim_C3 (votes : List (String × Vote)) (killer_name : String)
    (current_round : Nat) (hk : killer_name ≠ "") :
    (∀ t, ((vote_counts_of votes).lookup t).getD 0
        = votes.countP (fun p => p.2.vote == t))
    ∧ majority_agent (vote_counts_of votes)
        = ((vote_counts_of votes).find? (fun p => decide (3 ≤ p.2))).map Prod.fst
    ∧ majority_agent [("A", 3), ("B", 1), ("C", 1)] = some "A"
    ∧ majority_agent [("A", 2), ("B", 2), ("C", 1)] = none
    ∧ ((voting_outcome votes killer_name current_round).correctly_identified = true
        ↔ (voting_outcome votes killer_name current_round).majority_agent
            = some killer_name)
    ∧ ((voting_outcome votes killer_name current_round).majority_agent = none →
        (voting_outcome votes killer_name current_round).correctly_identified = false) := by
  refine ⟨?_, majority_agent_eq_find _, by decide, by decide, ?_, ?_⟩
  · intro t
    have h := vote_counts_foldl_lookup votes [] t
    simpa [vote_counts_of] using h
  · simp only [voting_outcome]
    cases hma : majority_agent (vote_counts_of votes) with
    | none => simp
    | some a =>
      by_cases ha : a = ""
      · subst ha
        simp [Ne.symm hk]
      · simp [ha]
  · intro hma
    simp only [voting_outcome] at hma ⊢
    rw [hma]

theorem claim_C3_witness :
    (voting_outcome votesEx "Openness Agent" 4).correctly_identified = true
    ∧ majority_agent [("A", 2), ("B", 2), ("C", 1)] = none := by
  have h := claim_C3 votesEx "Openness Agent" 4 (by decide)
  exact ⟨h.2.2.2.2.1.mpr (by decide), h.2.2.2.1⟩

/-- Claim C7: the voting step marks the game complete exactly when a majority
agent is found or the round counter exceeds 20; and in the concrete 21-round
simulation where no tally ever reaches quorum, the driver loop reports the
game complete right after the voting phase that follows round 21 (round
counter 22). -/
theorem claim_C7 (as : AppState)
    (venv : String → Nat → List (String × String) → Except String (String × String))
    (rand : String → Nat)
    (hnames : as.engine.agents.map Agent.name = create_agents.map Agent.name)
    (hc : as.game_complete = false) :
    (((conduct_voting_step venv rand as).game_complete = true)
      ↔ (majority_agent (vote_counts_of (as.engine.conduct_voting venv rand)) ≠ none
          ∨ as.current_round > 20))
    ∧ app_termination_sim = true
    ∧ app_termination_sim_round = 22 := by
  refine ⟨?_, rfl, rfl⟩
  have htr : py_truthy (majority_agent (vote_counts_of (as.engine.conduct_voting venv rand)))
      = (majority_agent (vote_counts_of (as.engine.conduct_voting venv rand))).isSome := by
    cases hma : majority_agent (vote_counts_of (as.engine.conduct_voting venv rand)) with
    | none => rfl
    | some a =>
      have hmem := majority_agent_mem _ _ hma
      obtain ⟨p, hp, hpa⟩ := vote_counts_keys_sub _ _ hmem
      have htgt := (conduct_voting_target_mem as.engine venv rand hnames p hp).1
      have hane : a ≠ "" := by
        have ha2 : a ∈ create_agents.map Agent.name := by
          rw [← hnames]; exact hpa ▸ htgt
        exact create_names_ne_empty a ha2
      simp [py_truthy, hane]
  simp only [conduct_voting_step]
  split
  next hcond =>
    constructor
    · intro _
      rcases (Bool.or_eq_true _ _).mp hcond with h1 | h1
      · left
        rw [htr] at h1
        exact Option.ne_none_iff_isSome.2 h1
      · right
        exact of_decide_eq_true h1
    · intro _
      rfl
  next hcond =>
    constructor
    · intro h
      have h2 : as.game_complete = true := h
      rw [hc] at h2
      exact absurd h2 (by simp)
    · intro h
      exfalso
      rcases h with h1 | h1
      · have h2 : py_truthy (majority_agent
            (vote_counts_of (as.engine.conduct_voting venv rand))) = true := by
          rw [htr]
          exact Option.ne_none_iff_isSome.1 h1
        exact hcond ((Bool.or_eq_true _ _).mpr (Or.inl h2))
      · exact hcond ((Bool.or_eq_true _ _).mpr (Or.inr (decide_eq_true h1)))

theorem claim_C7_witness :
    (((conduct_voting_step venvCycle randZero (init_new_game "m" 0)).game_complete = true)
      ↔ (majority_agent (vote_counts_of
            ((init_new_game "m" 0).engine.conduct_voting venvCycle randZero)) ≠ none
          ∨ (init_new_game "m" 0).current_round > 20))
    ∧ app_termination_sim = true
    ∧ app_termination_sim_round = 22 :=
  claim_C7 (init_new_game "m" 0) venvCycle randZero (mk_agents_names "m" 0) rfl
